import Mathlib

/-!
Verification of the clipboard-sync TCP server/client core
(src/network_alternative.rs) against its specification.

The Rust source is shallowly embedded:
* `ClipboardContent` / `ClipboardMessage` mirror the serde data model.
* serde_json serialization is modelled at the JSON value level: `Json` is
  the value tree serde_json produces for these types (externally tagged
  enums, struct fields in declaration order), `toJson` models
  `serde_json::to_vec` and `fromJson` models `serde_json::from_slice`.
* The connection registry `HashMap<String, TcpStream>` is an association
  list with unique keys; a `TcpStream` is a `Conn` record holding a
  writability flag, the bytes written so far, and the pending inbound bytes.
* Stateful async functions become pure state-passing functions; the clock
  and the socket dial outcome become explicit parameters.
-/

namespace ClipboardSync

/-- Clipboard payload, mirroring `enum ClipboardContent` in the source:
either a text string or an image with width, height and raw data bytes. -/
inductive ClipboardContent where
  | Text (s : String)
  | Image (width : Nat) (height : Nat) (data : List Nat)
deriving DecidableEq, Repr

/-- Synchronization message, mirroring `struct ClipboardMessage`:
content plus a timestamp in whole seconds and sender identity strings. -/
structure ClipboardMessage where
  content : ClipboardContent
  timestamp : Nat
  sender_id : String
  sender_name : String
deriving DecidableEq, Repr

/-- JSON value tree, the target of the serde_json model. -/
inductive Json where
  | jstr (s : String)
  | jnum (n : Nat)
  | jarr (xs : List Json)
  | jobj (fields : List (String × Json))

/-- Externally tagged serde encoding of `ClipboardContent`:
`Text(s)` becomes an object with single key "Text", `Image` becomes an
object with single key "Image" whose value carries the three fields in
declaration order. -/
def ClipboardContent.toJson : ClipboardContent → Json
  | .Text s => .jobj [("Text", .jstr s)]
  | .Image w h d =>
      .jobj [("Image", .jobj [("width", .jnum w), ("height", .jnum h),
                              ("data", .jarr (d.map Json.jnum))])]

/-- Serde encoding of `ClipboardMessage`: struct fields in declaration
order. -/
def ClipboardMessage.toJson (m : ClipboardMessage) : Json :=
  .jobj [("content", m.content.toJson), ("timestamp", .jnum m.timestamp),
         ("sender_id", .jstr m.sender_id), ("sender_name", .jstr m.sender_name)]

/-- Field lookup in a JSON object (serde deserializers accept fields by
name). -/
def Json.getField (j : Json) (k : String) : Option Json :=
  match j with
  | .jobj fs => fs.lookup k
  | _ => none

/-- Expect a JSON string. -/
def Json.asStr : Json → Option String
  | .jstr s => some s
  | _ => none

/-- Expect a JSON number. -/
def Json.asNum : Json → Option Nat
  | .jnum n => some n
  | _ => none

/-- Decode a JSON array of numbers into a byte list (the `data` field of an
image). -/
def decodeNatList : List Json → Option (List Nat)
  | [] => some []
  | x :: xs => do
      let n ← x.asNum
      let rest ← decodeNatList xs
      pure (n :: rest)

/-- Serde decoding of `ClipboardContent`: an externally tagged enum is an
object with exactly one key naming the variant. -/
def ClipboardContent.fromJson (j : Json) : Option ClipboardContent :=
  match j with
  | .jobj [("Text", v)] => v.asStr.map ClipboardContent.Text
  | .jobj [("Image", body)] => do
      let w ← (body.getField "width").bind Json.asNum
      let h ← (body.getField "height").bind Json.asNum
      let dj ← body.getField "data"
      match dj with
      | .jarr xs => do
          let d ← decodeNatList xs
          pure (ClipboardContent.Image w h d)
      | _ => none
  | _ => none

/-- Serde decoding of `ClipboardMessage`: look up the four struct fields by
name. -/
def ClipboardMessage.fromJson (j : Json) : Option ClipboardMessage := do
  let cj ← j.getField "content"
  let c ← ClipboardContent.fromJson cj
  let ts ← (j.getField "timestamp").bind Json.asNum
  let sid ← (j.getField "sender_id").bind Json.asStr
  let sn ← (j.getField "sender_name").bind Json.asStr
  pure ⟨c, ts, sid, sn⟩

/-- Model of `ClipboardMessage::to_bytes` (`serde_json::to_vec`): at the
JSON value level serialization of this type always succeeds, but the
`Result` shape of the source is kept. -/
def ClipboardMessage.to_bytes (m : ClipboardMessage) : Except String Json :=
  .ok m.toJson

/-- Model of `ClipboardMessage::from_bytes` (`serde_json::from_slice`):
fails on any value that does not parse into the message shape. -/
def ClipboardMessage.from_bytes (j : Json) : Except String ClipboardMessage :=
  match ClipboardMessage.fromJson j with
  | some m => .ok m
  | none => .error "parse error"

/-- Dial timeout in seconds: `CONNECTION_TIMEOUT = Duration::from_secs(10)`. -/
def CONNECTION_TIMEOUT : Nat := 10

/-- Maximum message size in bytes: `10 * 1024 * 1024` (10 MiB). -/
def MESSAGE_MAX_SIZE : Nat := 10 * 1024 * 1024

/-- Big-endian byte encoding of a `u32`, modelling `u32::to_be_bytes`
applied to `data.len() as u32` (the cast truncates modulo two to the 32). -/
def u32ToBeBytes (n : Nat) : List Nat :=
  [n / 2 ^ 24 % 256, n / 2 ^ 16 % 256, n / 2 ^ 8 % 256, n % 256]

/-- Big-endian interpretation of 4 bytes, modelling `u32::from_be_bytes`. -/
def u32FromBeBytes (b : List Nat) : Nat :=
  match b with
  | [b0, b1, b2, b3] => b0 * 2 ^ 24 + b1 * 2 ^ 16 + b2 * 2 ^ 8 + b3
  | _ => 0

/-- Wire frame assembled by `broadcast_message`: a 4-byte big-endian length
followed by the body. -/
def frameBytes (data : List Nat) : List Nat :=
  u32ToBeBytes (data.length % 2 ^ 32) ++ data

/-- Model of a `TcpStream` as seen by this layer: whether writes to it
succeed, the bytes written so far, and the pending inbound bytes (the
readable side of the socket up to its close). -/
structure Conn where
  writable : Bool
  written : List Nat
  inbound : List Nat
deriving DecidableEq, Repr

/-- Model of `TcpStream::write_all`: appends the bytes when the peer is
writable, fails otherwise. -/
def Conn.write_all (c : Conn) (bytes : List Nat) : Except Unit Conn :=
  if c.writable then .ok { c with written := c.written ++ bytes } else .error ()

/-- The connection registry `HashMap<String, TcpStream>` as an association
list from device id to connection. -/
abbrev Registry (α : Type) : Type := List (String × α)

/-- Lookup by key, modelling `HashMap::get`. -/
def Registry.lookup {α : Type} : Registry α → String → Option α
  | [], _ => none
  | (k, v) :: rest, id => if k = id then some v else Registry.lookup rest id

/-- Removal by key, modelling `HashMap::remove` (a no-op when absent). -/
def Registry.remove {α : Type} (m : Registry α) (k : String) : Registry α :=
  List.filter (fun p => p.1 != k) m

/-- Insertion, modelling `HashMap::insert`: a duplicate key replaces the
prior entry. -/
def Registry.insert {α : Type} (m : Registry α) (k : String) (v : α) : Registry α :=
  Registry.remove m k ++ [(k, v)]

/-- In-place update of the value bound to a key (modelling mutation through
`HashMap::get_mut`, which leaves the key set untouched). -/
def Registry.setVal {α : Type} (m : Registry α) (k : String) (v : α) : Registry α :=
  m.map (fun p => if p.1 = k then (p.1, v) else p)

/-- The keys of a registry. -/
abbrev Registry.keys {α : Type} (m : Registry α) : List String :=
  m.map Prod.fst

/-- The registry invariant: keys are unique at any instant. -/
abbrev Registry.keysUnique {α : Type} (m : Registry α) : Prop :=
  (Registry.keys m).Nodup

/-- Errors of the read path, naming the anyhow error strings of
`read_message`: the prefix-read failure 连接断开 (connection closed), the
oversize rejection 消息过大 (frame too large), a propagated io error from the
body read, and the decode failure 解析消息失败 (malformed payload). -/
inductive ReadErr where
  | connectionClosed
  | frameTooLarge (declared : Nat)
  | ioError
  | malformedPayload
deriving DecidableEq, Repr

/-- Result of one `read_message` call: its returned `Result<()>`, the bytes
left unconsumed on the stream, and the messages actually delivered to the
inbound channel. -/
structure ReadOutcome where
  result : Except ReadErr Unit
  remaining : List Nat
  forwarded : List ClipboardMessage
deriving Repr

/-- State of `message_sender`: `none` when no handler was installed,
`some alive` when a sender exists and `alive` says whether the receiver is
still listening (an `UnboundedSender::send` succeeds exactly when it is). -/
abbrev ChannelState : Type := Option Bool

/-- Model of `NetworkManager::read_message`, with the body decoder
(`ClipboardMessage::from_bytes` at the byte level, external serde_json
code) abstracted as `decodeBody`. Reads exactly 4 prefix bytes (failure,
including a clean close, is `connectionClosed`), interprets them big-endian,
rejects declared lengths above `MESSAGE_MAX_SIZE` before touching the body,
otherwise reads the body and decodes; a decoded message is forwarded
best-effort: a missing handler or a dropped receiver only skips delivery,
the call still succeeds. -/
def read_message (decodeBody : List Nat → Except String ClipboardMessage)
    (chan : ChannelState) (stream : List Nat) : ReadOutcome :=
  if stream.length < 4 then ⟨.error .connectionClosed, stream, []⟩
  else
    let len := u32FromBeBytes (stream.take 4)
    let rest := stream.drop 4
    if len > MESSAGE_MAX_SIZE then ⟨.error (.frameTooLarge len), rest, []⟩
    else if rest.length < len then ⟨.error .ioError, rest, []⟩
    else
      match decodeBody (rest.take len) with
      | .error _ => ⟨.error .malformedPayload, rest.drop len, []⟩
      | .ok msg =>
          match chan with
          | none => ⟨.ok (), rest.drop len, []⟩
          | some alive =>
              if alive then ⟨.ok (), rest.drop len, [msg]⟩
              else ⟨.ok (), rest.drop len, []⟩

/-- One iteration of the reader loop spawned by `connect_to_device`: when
the peer is still registered, run `read_message` on its stream; on success
the stream simply advances, on any read error the peer entry is removed
from the registry and the loop breaks. Returns the registry afterwards and
the read result (`none` when the loop broke before reading). -/
def readerLoopStep (decodeBody : List Nat → Except String ClipboardMessage)
    (chan : ChannelState) (conns : Registry Conn) (id : String) :
    Registry Conn × Option (Except ReadErr Unit) :=
  match Registry.lookup conns id with
  | none => (conns, none)
  | some conn =>
      let out := read_message decodeBody chan conn.inbound
      match out.result with
      | .ok _ => (Registry.setVal conns id { conn with inbound := out.remaining }, some (.ok ()))
      | .error e => (Registry.remove conns id, some (.error e))

/-- Model of `NetworkManager::broadcast_message`, with byte-level
serialization (`ClipboardMessage::to_bytes`, external serde_json code)
abstracted as `ser`. Encodes once; on encoding failure the whole call
fails. Otherwise writes the length-prefixed frame to every registered
connection, collects the ids whose write failed, removes them, and returns
success regardless of per-peer failures. -/
def broadcast_message (ser : ClipboardMessage → Except String (List Nat))
    (conns : Registry Conn) (m : ClipboardMessage) :
    Except String Unit × Registry Conn :=
  match ser m with
  | .error e => (.error e, conns)
  | .ok data =>
      let send_data := frameBytes data
      let results := conns.map (fun p =>
        match Conn.write_all p.2 send_data with
        | .ok c => ((p.1, c), (none : Option String))
        | .error _ => ((p.1, p.2), some p.1))
      let conns1 := results.map Prod.fst
      let failed := results.filterMap Prod.snd
      (.ok (), failed.foldl Registry.remove conns1)

/-- Dial-side and connect-time errors, naming the anyhow error strings of
`connect_to_device`: 无效的IP地址 (invalid ip), 连接失败 (connect failed,
carrying the socket cause) and 连接超时 (connect timeout). -/
inductive ConnectErr where
  | invalidIp (cause : String)
  | connectFailed (cause : String)
  | connectTimeout
deriving DecidableEq, Repr

/-- Outcome of `tokio::time::timeout(CONNECTION_TIMEOUT, TcpStream::connect)`:
the timer fires first, the socket layer reports an error, or a stream is
established. -/
inductive DialOutcome where
  | timeout
  | sockErr (cause : String)
  | success (stream : Conn)
deriving DecidableEq, Repr

/-- Model of `NetworkManager::connect_to_device`, with the ip-parse result
and the dial outcome as explicit parameters. On success the device id
`server_ip:port` is inserted into the registry and returned; every failure
leaves the registry untouched. -/
def connect_to_device (conns : Registry Conn) (ip : String) (port : Nat)
    (parsedIp : Except String Unit) (dial : DialOutcome) :
    Except ConnectErr String × Registry Conn :=
  match parsedIp with
  | .error e => (.error (.invalidIp e), conns)
  | .ok _ =>
      match dial with
      | .success stream =>
          let device_id := "server_" ++ ip ++ ":" ++ toString port
          (.ok device_id, Registry.insert conns device_id stream)
      | .sockErr e => (.error (.connectFailed e), conns)
      | .timeout => (.error .connectTimeout, conns)

/-- Model of `ClipboardMessage::new_text`; the clock reading
`SystemTime::now().duration_since(UNIX_EPOCH).as_secs()` is the explicit
parameter `now`, in whole seconds. -/
def ClipboardMessage.new_text (content sender_id sender_name : String)
    (now : Nat) : ClipboardMessage :=
  ⟨.Text content, now, sender_id, sender_name⟩

/-- Model of `ClipboardMessage::new_image`, clock as in `new_text`. -/
def ClipboardMessage.new_image (width height : Nat) (data : List Nat)
    (sender_id sender_name : String) (now : Nat) : ClipboardMessage :=
  ⟨.Image width height data, now, sender_id, sender_name⟩

/-- Model of `NetworkManager::broadcast_clipboard`: builds a text message
with the fixed sender id and the device name of the manager, then
broadcasts it. -/
def broadcast_clipboard (ser : ClipboardMessage → Except String (List Nat))
    (conns : Registry Conn) (device_name : String) (now : Nat)
    (content : String) : Except String Unit × Registry Conn :=
  broadcast_message ser conns
    (ClipboardMessage.new_text content "local_device" device_name now)

/-- Model of `NetworkManager::broadcast_image`, analogous to
`broadcast_clipboard`. -/
def broadcast_image (ser : ClipboardMessage → Except String (List Nat))
    (conns : Registry Conn) (device_name : String) (now : Nat)
    (width height : Nat) (data : List Nat) : Except String Unit × Registry Conn :=
  broadcast_message ser conns
    (ClipboardMessage.new_image width height data "local_device" device_name now)

/-- Model of `ClipboardContent::preview`: texts longer than `max_length`
characters are cut to the first `max_length` characters plus an ellipsis;
images render as 图片 widthxheight and never expose the data bytes. -/
def ClipboardContent.preview (c : ClipboardContent) (max_length : Nat) : String :=
  match c with
  | .Text text =>
      if text.length > max_length then
        String.mk (text.toList.take max_length) ++ "..."
      else text
  | .Image w h _ => "图片 " ++ toString w ++ "x" ++ toString h

/-- Lock and network events, for stating where network writes happen
relative to the registry lock. -/
inductive Ev where
  | lockAcquire
  | lockRelease
  | netWrite (id : String)
  | mapRemove (id : String)
deriving DecidableEq, Repr

/-- Event trace of one `broadcast_message` call, read off the source: the
registry mutex is locked once (line 313), every registered connection is
written to under that lock (lines 316 to 326), the failed ids are removed
still under it (lines 329 to 331), and the guard drops at the end of the
function. -/
def broadcastEvents (conns : Registry Conn) : List Ev :=
  [Ev.lockAcquire]
    ++ conns.map (fun p => Ev.netWrite p.1)
    ++ (conns.filterMap (fun p =>
          if p.2.writable then none else some (Ev.mapRemove p.1)))
    ++ [Ev.lockRelease]

/-- Whether a trace performs a network write at a point where the registry
lock is held, scanning with the current lock depth. -/
def writeUnderLock : Nat → List Ev → Bool
  | _, [] => false
  | d, Ev.lockAcquire :: r => writeUnderLock (d + 1) r
  | d, Ev.lockRelease :: r => writeUnderLock (d - 1) r
  | d, Ev.netWrite _ :: r => decide (0 < d) || writeUnderLock d r
  | d, Ev.mapRemove _ :: r => writeUnderLock d r

/-! Helper lemmas about the JSON codec and the registry model. -/

theorem decodeNatList_map (d : List Nat) : decodeNatList (d.map Json.jnum) = some d := by
  induction d with
  | nil => rfl
  | cons x xs ih => simp [decodeNatList, Json.asNum, ih]

theorem content_roundtrip (c : ClipboardContent) :
    ClipboardContent.fromJson c.toJson = some c := by
  cases c with
  | Text s => rfl
  | Image w h d =>
      simp [ClipboardContent.toJson, ClipboardContent.fromJson, Json.getField,
            List.lookup, Json.asNum, decodeNatList_map d]

theorem msg_roundtrip (m : ClipboardMessage) :
    ClipboardMessage.fromJson m.toJson = some m := by
  simp [ClipboardMessage.toJson, ClipboardMessage.fromJson, Json.getField,
        List.lookup, Json.asStr, Json.asNum, content_roundtrip]

theorem Registry.lookup_remove_self {α : Type} (m : Registry α) (k : String) :
    Registry.lookup (Registry.remove m k) k = none := by
  induction m with
  | nil => rfl
  | cons p rest ih =>
      by_cases h : p.1 = k
      · simpa [Registry.remove, List.filter_cons, h] using ih
      · simpa [Registry.remove, List.filter_cons, h, Registry.lookup] using ih

theorem Registry.lookup_remove_ne {α : Type} (m : Registry α) (k id : String)
    (h : id ≠ k) :
    Registry.lookup (Registry.remove m k) id = Registry.lookup m id := by
  induction m with
  | nil => rfl
  | cons p rest ih =>
      by_cases hp : p.1 = k
      · have hpid : p.1 ≠ id := fun e => h (hp ▸ e.symm)
        simp [Registry.remove, List.filter_cons, hp, Registry.lookup, hpid,
              Ne.symm h] at ih ⊢
        exact ih
      · by_cases hid : p.1 = id
        · simp [Registry.remove, List.filter_cons, hp, Registry.lookup, hid, h]
        · simp [Registry.remove, List.filter_cons, hp, Registry.lookup, hid, h] at ih ⊢
          exact ih

theorem Registry.lookup_map_val {α β : Type} (m : Registry α) (f : α → β) (id : String) :
    Registry.lookup (m.map (fun p => (p.1, f p.2))) id = (Registry.lookup m id).map f := by
  induction m with
  | nil => rfl
  | cons p rest ih =>
      by_cases hid : p.1 = id
      · simp [Registry.lookup, hid]
      · simp [Registry.lookup, hid, ih]

theorem Registry.mem_of_lookup {α : Type} (m : Registry α) (id : String) (c : α)
    (h : Registry.lookup m id = some c) : (id, c) ∈ m := by
  induction m with
  | nil => simp [Registry.lookup] at h
  | cons p rest ih =>
      by_cases hid : p.1 = id
      · simp [Registry.lookup, hid] at h
        have hp : p = (id, c) := by cases p; simp_all
        rw [hp]
        exact List.mem_cons_self _ _
      · simp [Registry.lookup, hid] at h
        exact List.mem_cons_of_mem _ (ih h)

theorem Registry.lookup_setVal_self {α : Type} (m : Registry α) (k : String)
    (v c : α) (h : Registry.lookup m k = some c) :
    Registry.lookup (Registry.setVal m k v) k = some v := by
  induction m with
  | nil => simp [Registry.lookup] at h
  | cons p rest ih =>
      simp only [Registry.setVal, List.map_cons]
      by_cases hk : p.1 = k
      · rw [if_pos hk]
        simp [Registry.lookup, hk]
      · rw [if_neg hk]
        simp only [Registry.lookup, hk, if_false, eq_self_iff_true] at h ⊢
        exact ih h

theorem Registry.keys_remove_sublist {α : Type} (m : Registry α) (k : String) :
    List.Sublist (Registry.keys (Registry.remove m k)) (Registry.keys m) :=
  List.Sublist.map Prod.fst (List.filter_sublist m)

theorem Registry.not_mem_keys_remove {α : Type} (m : Registry α) (k : String) :
    k ∉ Registry.keys (Registry.remove m k) := by
  intro hk
  simp only [Registry.keys, Registry.remove, List.mem_map] at hk
  obtain ⟨p, hp, hp1⟩ := hk
  rw [List.mem_filter] at hp
  simp [hp1] at hp

theorem Registry.keysUnique_remove {α : Type} (m : Registry α) (k : String)
    (h : Registry.keysUnique m) : Registry.keysUnique (Registry.remove m k) :=
  List.Nodup.sublist (Registry.keys_remove_sublist m k) h

theorem Registry.keysUnique_insert {α : Type} (m : Registry α) (k : String) (v : α)
    (h : Registry.keysUnique m) : Registry.keysUnique (Registry.insert m k v) := by
  have h1 := Registry.keysUnique_remove m k h
  have h2 := Registry.not_mem_keys_remove m k
  simp only [Registry.keysUnique, Registry.keys, Registry.insert, List.map_append,
             List.nodup_append] at h1 h2 ⊢
  refine ⟨h1, by simp, ?_⟩
  intro a ha hb
  simp at hb
  exact h2 (hb ▸ ha)

theorem Registry.lookup_append_of_none {α : Type} (a b : Registry α) (id : String)
    (h : Registry.lookup a id = none) :
    Registry.lookup (a ++ b) id = Registry.lookup b id := by
  induction a with
  | nil => rfl
  | cons p rest ih =>
      by_cases hp : p.1 = id
      · simp [Registry.lookup, hp] at h
      · simp [Registry.lookup, hp] at h ⊢
        exact ih h

theorem Registry.filter_key_remove {α : Type} (m : Registry α) (k : String) :
    (Registry.remove m k).filter (fun p => p.1 == k) = [] := by
  induction m with
  | nil => rfl
  | cons p rest ih =>
      by_cases hp : p.1 = k
      · simp [Registry.remove, List.filter_cons, hp, ih]
      · simp [Registry.remove, List.filter_cons, hp, ih]

theorem u32ToBeBytes_length (n : Nat) : (u32ToBeBytes n).length = 4 := rfl

theorem u32_be_roundtrip (n : Nat) (h : n < 2 ^ 32) :
    u32FromBeBytes (u32ToBeBytes n) = n := by
  simp [u32ToBeBytes, u32FromBeBytes]
  omega

theorem frameBytes_cons (data extra : List Nat) :
    frameBytes data ++ extra =
      (data.length % 2 ^ 32) / 2 ^ 24 % 256 :: (data.length % 2 ^ 32) / 2 ^ 16 % 256 ::
      (data.length % 2 ^ 32) / 2 ^ 8 % 256 :: (data.length % 2 ^ 32) % 256 ::
      (data ++ extra) := by
  simp [frameBytes, u32ToBeBytes]

theorem take4_frame (data extra : List Nat) :
    (frameBytes data ++ extra).take 4 = u32ToBeBytes (data.length % 2 ^ 32) := by
  rw [frameBytes_cons]
  rfl

theorem drop4_frame (data extra : List Nat) :
    (frameBytes data ++ extra).drop 4 = data ++ extra := by
  rw [frameBytes_cons]
  rfl

theorem frame_length (data extra : List Nat) :
    (frameBytes data ++ extra).length = 4 + data.length + extra.length := by
  rw [frameBytes_cons]
  simp
  omega

theorem MESSAGE_MAX_SIZE_lt : MESSAGE_MAX_SIZE < 2 ^ 32 := by decide

theorem read_message_frame (decodeBody : List Nat → Except String ClipboardMessage)
    (chan : ChannelState) (data extra : List Nat)
    (hlen : data.length ≤ MESSAGE_MAX_SIZE) :
    read_message decodeBody chan (frameBytes data ++ extra) =
      match decodeBody data with
      | .error _ => ⟨.error .malformedPayload, extra, []⟩
      | .ok msg =>
          match chan with
          | none => ⟨.ok (), extra, []⟩
          | some alive =>
              if alive then ⟨.ok (), extra, [msg]⟩ else ⟨.ok (), extra, []⟩ := by
  have hmod : data.length % 2 ^ 32 = data.length :=
    Nat.mod_eq_of_lt (lt_of_le_of_lt hlen MESSAGE_MAX_SIZE_lt)
  have hlen4 : ¬ (frameBytes data ++ extra).length < 4 := by
    rw [frame_length]; omega
  have hfrom : u32FromBeBytes ((frameBytes data ++ extra).take 4) = data.length := by
    rw [take4_frame, hmod, u32_be_roundtrip _ (lt_of_le_of_lt hlen MESSAGE_MAX_SIZE_lt)]
  unfold read_message
  rw [if_neg hlen4]
  simp only [hfrom, drop4_frame]
  rw [if_neg (by omega : ¬ data.length > MESSAGE_MAX_SIZE)]
  rw [if_neg (by simp : ¬ (data ++ extra).length < data.length)]
  rw [List.take_left, List.drop_left]

/-! Claim theorems. -/

/-- C1: for every ClipboardMessage m, deserializing the bytes produced by
serializing m yields a message equal to m, for both Text and Image content
variants (round-trip of from_bytes after to_bytes). -/
theorem claim_C1 (m : ClipboardMessage) :
    Except.bind m.to_bytes ClipboardMessage.from_bytes = Except.ok m := by
  simp [ClipboardMessage.to_bytes, ClipboardMessage.from_bytes, Except.bind,
        msg_roundtrip]

/-- C4: after insert(id, c1) followed by insert(id, c2), the registry holds
exactly one entry for id and it is bound to c2 (both as the filtered entry
list and through lookup); and the key-uniqueness invariant is preserved by
insert and by remove, so the keys stay unique at every instant. -/
theorem claim_C4 (m : Registry Conn) (id : String) (c1 c2 : Conn)
    (h : Registry.keysUnique m) :
    ((Registry.insert (Registry.insert m id c1) id c2).filter
        (fun p => p.1 == id) = [(id, c2)]) ∧
    Registry.lookup (Registry.insert (Registry.insert m id c1) id c2) id = some c2 ∧
    Registry.keysUnique (Registry.insert (Registry.insert m id c1) id c2) ∧
    (∀ k v, Registry.keysUnique (Registry.insert m k v)) ∧
    (∀ k, Registry.keysUnique (Registry.remove m k)) := by
  refine ⟨?_, ?_, ?_, fun k v => Registry.keysUnique_insert m k v h,
          fun k => Registry.keysUnique_remove m k h⟩
  · show ((Registry.remove (Registry.insert m id c1) id ++ [(id, c2)]).filter
        (fun p => p.1 == id) = [(id, c2)])
    rw [List.filter_append, Registry.filter_key_remove]
    simp [List.filter_cons]
  · show Registry.lookup
        (Registry.remove (Registry.insert m id c1) id ++ [(id, c2)]) id = some c2
    rw [Registry.lookup_append_of_none _ _ _ (Registry.lookup_remove_self _ _)]
    simp [Registry.lookup]
  · exact Registry.keysUnique_insert _ id c2 (Registry.keysUnique_insert m id c1 h)

theorem claim_C4_witness :
    Registry.lookup
      (Registry.insert
        (Registry.insert [("x", Conn.mk true [] [])] "a" (Conn.mk true [1] []))
        "a" (Conn.mk false [2] [])) "a" = some (Conn.mk false [2] []) := by
  have h := claim_C4 [("x", Conn.mk true [] [])] "a" (Conn.mk true [1] [])
    (Conn.mk false [2] []) (by decide)
  exact h.2.1

/-- C5: connect_to_device bounds the dial by the 10 second
CONNECTION_TIMEOUT; a timed-out dial fails with ConnectTimeout, a refused
or otherwise failed dial fails with ConnectFailed carrying the underlying
cause, and every failure (including an invalid ip) leaves the registry
unchanged. -/
theorem claim_C5 (conns : Registry Conn) (ip : String) (port : Nat)
    (e : String) (d : DialOutcome) :
    connect_to_device conns ip port (.ok ()) .timeout =
      (.error .connectTimeout, conns) ∧
    connect_to_device conns ip port (.ok ()) (.sockErr e) =
      (.error (.connectFailed e), conns) ∧
    connect_to_device conns ip port (.error e) d =
      (.error (.invalidIp e), conns) ∧
    CONNECTION_TIMEOUT = 10 ∧
    (∀ r err, (connect_to_device conns ip port r d).1 = .error err →
      (connect_to_device conns ip port r d).2 = conns) := by
  refine ⟨rfl, rfl, rfl, rfl, ?_⟩
  intro r err h
  cases r with
  | error e0 => rfl
  | ok u =>
      cases d with
      | timeout => rfl
      | sockErr c => rfl
      | success s => simp [connect_to_device] at h

theorem claim_C5_witness :
    (connect_to_device [] "10.0.0.1" 8080 (.ok ()) .timeout).2 =
      ([] : Registry Conn) :=
  (claim_C5 [] "10.0.0.1" 8080 "refused" .timeout).2.2.2.2 (.ok ()) .connectTimeout rfl

/-- C8: preview of a Text content returns the text itself when its
character count is at most the bound, and otherwise exactly the first n
characters followed by an ellipsis; preview of an Image is built only from
width and height (it is invariant under the image bytes and equals the
fixed width-by-height string). -/
theorem claim_C8 :
    (∀ t n, t.length ≤ n → ClipboardContent.preview (.Text t) n = t) ∧
    (∀ t n, n < t.length →
      ClipboardContent.preview (.Text t) n = String.mk (t.toList.take n) ++ "...") ∧
    (∀ w h d n,
      ClipboardContent.preview (.Image w h d) n =
        "图片 " ++ toString w ++ "x" ++ toString h) ∧
    (∀ w h d d2 n,
      ClipboardContent.preview (.Image w h d) n =
        ClipboardContent.preview (.Image w h d2) n) := by
  refine ⟨?_, ?_, fun w h d n => rfl, fun w h d d2 n => rfl⟩
  · intro t n hle
    simp [ClipboardContent.preview, Nat.not_lt.mpr hle]
  · intro t n hlt
    simp [ClipboardContent.preview, hlt]

theorem claim_C8_witness :
    ClipboardContent.preview (.Text "hi") 5 = "hi" ∧
    ClipboardContent.preview (.Text "hello") 3 = "hel..." ∧
    ClipboardContent.preview (.Image 2 3 [9, 9, 9]) 5 =
      ClipboardContent.preview (.Image 2 3 [7]) 5 := by
  refine ⟨claim_C8.1 "hi" 5 (by decide), ?_, claim_C8.2.2.2 2 3 [9, 9, 9] [7] 5⟩
  have h := claim_C8.2.1 "hello" 3 (by decide)
  simpa using h

/-- C10: every message built by broadcast_clipboard or broadcast_image
carries the fixed sender id string local_device, sender name equal to the
device name of the manager, and a timestamp equal to the clock reading in
whole seconds since the epoch at construction time; both functions
broadcast exactly that message. -/
theorem claim_C10 (ser : ClipboardMessage → Except String (List Nat))
    (conns : Registry Conn) (dn : String) (now : Nat) (content : String)
    (w h : Nat) (data : List Nat) :
    (ClipboardMessage.new_text content "local_device" dn now).sender_id =
      "local_device" ∧
    (ClipboardMessage.new_text content "local_device" dn now).sender_name = dn ∧
    (ClipboardMessage.new_text content "local_device" dn now).timestamp = now ∧
    (ClipboardMessage.new_text content "local_device" dn now).content =
      .Text content ∧
    broadcast_clipboard ser conns dn now content =
      broadcast_message ser conns
        (ClipboardMessage.new_text content "local_device" dn now) ∧
    (ClipboardMessage.new_image w h data "local_device" dn now).sender_id =
      "local_device" ∧
    (ClipboardMessage.new_image w h data "local_device" dn now).sender_name = dn ∧
    (ClipboardMessage.new_image w h data "local_device" dn now).timestamp = now ∧
    (ClipboardMessage.new_image w h data "local_device" dn now).content =
      .Image w h data ∧
    broadcast_image ser conns dn now w h data =
      broadcast_message ser conns
        (ClipboardMessage.new_image w h data "local_device" dn now) :=
  ⟨rfl, rfl, rfl, rfl, rfl, rfl, rfl, rfl, rfl, rfl⟩

/-- C3: an inbound frame whose 4-byte declared length exceeds the 10 MiB
maximum fails the reader with the frame-too-large error before any body
byte is read (the stream position stays right after the 4 prefix bytes and
nothing is forwarded), and one reader-loop iteration on such a stream
removes the peer entry from the registry. -/
theorem claim_C3 (decodeBody : List Nat → Except String ClipboardMessage)
    (chan : ChannelState) (stream : List Nat)
    (h4 : 4 ≤ stream.length)
    (hbig : MESSAGE_MAX_SIZE < u32FromBeBytes (stream.take 4)) :
    read_message decodeBody chan stream =
      ⟨.error (.frameTooLarge (u32FromBeBytes (stream.take 4))), stream.drop 4, []⟩ ∧
    (∀ conns id conn, Registry.lookup conns id = some conn → conn.inbound = stream →
      (readerLoopStep decodeBody chan conns id).1 = Registry.remove conns id ∧
      Registry.lookup (readerLoopStep decodeBody chan conns id).1 id = none) := by
  have hr : read_message decodeBody chan stream =
      ⟨.error (.frameTooLarge (u32FromBeBytes (stream.take 4))), stream.drop 4, []⟩ := by
    unfold read_message
    rw [if_neg (by omega), if_pos hbig]
  refine ⟨hr, ?_⟩
  intro conns id conn hlk hin
  unfold readerLoopStep
  simp only [hlk, hin, hr]
  exact ⟨trivial, Registry.lookup_remove_self conns id⟩

theorem claim_C3_witness :
    read_message (fun _ => .error "no") none ([0, 160, 0, 1] ++ [7]) =
      ⟨.error (.frameTooLarge 10485761), [7], []⟩ ∧
    Registry.lookup
      (readerLoopStep (fun _ => .error "no") none
        [("p", Conn.mk true [] ([0, 160, 0, 1] ++ [7]))] "p").1 "p" = none := by
  have h := claim_C3 (fun _ => .error "no") none ([0, 160, 0, 1] ++ [7])
    (by decide) (by decide)
  have h2 := (h.2 [("p", Conn.mk true [] ([0, 160, 0, 1] ++ [7]))] "p"
    (Conn.mk true [] ([0, 160, 0, 1] ++ [7])) (by decide) rfl).2
  exact ⟨by rw [h.1]; rfl, h2⟩

/-- C6: the encoded wire frame is a 4-byte big-endian unsigned length whose
value equals the byte length of the serialized body, followed by exactly
that body; the reader consumes exactly the 4 prefix bytes plus the declared
body (leaving any following bytes untouched), and a failure to read the
prefix, including a clean remote close, is the connection-closed error. -/
theorem claim_C6 (data : List Nat) (hlen : data.length ≤ MESSAGE_MAX_SIZE) :
    frameBytes data = u32ToBeBytes data.length ++ data ∧
    (u32ToBeBytes data.length).length = 4 ∧
    u32FromBeBytes (u32ToBeBytes data.length) = data.length ∧
    (∀ decodeBody chan extra,
      (read_message decodeBody chan (frameBytes data ++ extra)).remaining = extra) ∧
    (∀ decodeBody chan (stream : List Nat), stream.length < 4 →
      (read_message decodeBody chan stream).result = .error .connectionClosed) := by
  have h32 : data.length < 2 ^ 32 := lt_of_le_of_lt hlen MESSAGE_MAX_SIZE_lt
  refine ⟨?_, rfl, u32_be_roundtrip _ h32, ?_, ?_⟩
  · rw [frameBytes, Nat.mod_eq_of_lt h32]
  · intro db ch ex
    rw [read_message_frame db ch data ex hlen]
    cases db data with
    | error e => rfl
    | ok m =>
        cases ch with
        | none => rfl
        | some alive => cases alive <;> rfl
  · intro db ch s hs
    unfold read_message
    rw [if_pos hs]

theorem claim_C6_witness :
    frameBytes [5, 6] = [0, 0, 0, 2, 5, 6] ∧
    (read_message (fun _ => .error "no") none [1, 2]).result =
      .error .connectionClosed := by
  have h := claim_C6 [5, 6] (by decide)
  exact ⟨by rw [h.1]; rfl, h.2.2.2.2 (fun _ => .error "no") none [1, 2] (by decide)⟩

/-- C9: when no message handler is installed or the inbound-channel
receiver is gone, a successfully decoded message is silently discarded
(nothing is forwarded) and read_message still succeeds, so a reader-loop
iteration keeps the peer registered, merely advancing its stream. -/
theorem claim_C9 (decodeBody : List Nat → Except String ClipboardMessage)
    (chan : ChannelState) (data extra : List Nat) (msg : ClipboardMessage)
    (hlen : data.length ≤ MESSAGE_MAX_SIZE)
    (hdec : decodeBody data = .ok msg)
    (hchan : chan = none ∨ chan = some false) :
    (read_message decodeBody chan (frameBytes data ++ extra)).result = .ok () ∧
    (read_message decodeBody chan (frameBytes data ++ extra)).forwarded = [] ∧
    (∀ conns id conn, Registry.lookup conns id = some conn →
      conn.inbound = frameBytes data ++ extra →
      Registry.lookup (readerLoopStep decodeBody chan conns id).1 id =
        some { conn with inbound := extra }) := by
  have hr := read_message_frame decodeBody chan data extra hlen
  rw [hdec] at hr
  have hout : read_message decodeBody chan (frameBytes data ++ extra) =
      ⟨.ok (), extra, []⟩ := by
    rcases hchan with h | h <;> subst h
    · exact hr
    · simpa using hr
  refine ⟨by rw [hout], by rw [hout], ?_⟩
  intro conns id conn hlk hin
  unfold readerLoopStep
  simp only [hlk, hin, hout]
  exact Registry.lookup_setVal_self conns id _ conn hlk

theorem claim_C9_witness :
    (read_message (fun b => if b = [5] then .ok ⟨.Text "t", 0, "a", "b"⟩
        else .error "no") none (frameBytes [5] ++ [9])).result = .ok () ∧
    (read_message (fun b => if b = [5] then .ok ⟨.Text "t", 0, "a", "b"⟩
        else .error "no") none (frameBytes [5] ++ [9])).forwarded = [] ∧
    Registry.lookup
      (readerLoopStep (fun b => if b = [5] then .ok ⟨.Text "t", 0, "a", "b"⟩
          else .error "no") none
        [("p", Conn.mk true [] (frameBytes [5] ++ [9]))] "p").1 "p" =
      some (Conn.mk true [] [9]) := by
  have h := claim_C9 (fun b => if b = [5] then .ok ⟨.Text "t", 0, "a", "b"⟩
      else .error "no") none [5] [9] ⟨.Text "t", 0, "a", "b"⟩
    (by decide) (by simp) (Or.inl rfl)
  exact ⟨h.1, h.2.1,
    h.2.2 [("p", Conn.mk true [] (frameBytes [5] ++ [9]))] "p"
      (Conn.mk true [] (frameBytes [5] ++ [9])) (by simp [Registry.lookup]) rfl⟩


theorem bm_map_fst (sd : List Nat) (conns : Registry Conn) :
    ((conns.map (fun p =>
      match Conn.write_all p.2 sd with
      | .ok c => ((p.1, c), (none : Option String))
      | .error _ => ((p.1, p.2), some p.1))).map Prod.fst) =
    conns.map (fun p => (p.1,
      if p.2.writable then { p.2 with written := p.2.written ++ sd } else p.2)) := by
  induction conns with
  | nil => rfl
  | cons p rest ih =>
      have hhead : (match Conn.write_all p.2 sd with
          | .ok c => ((p.1, c), (none : Option String))
          | .error _ => ((p.1, p.2), some p.1)).1 =
          (p.1, if p.2.writable then { p.2 with written := p.2.written ++ sd } else p.2) := by
        cases hw : p.2.writable <;> simp [Conn.write_all, hw]
      simp only [List.map_cons, hhead, ih]

theorem bm_filterMap_snd (sd : List Nat) (conns : Registry Conn) :
    ((conns.map (fun p =>
      match Conn.write_all p.2 sd with
      | .ok c => ((p.1, c), (none : Option String))
      | .error _ => ((p.1, p.2), some p.1))).filterMap Prod.snd) =
    conns.filterMap (fun p => if p.2.writable then none else some p.1) := by
  induction conns with
  | nil => rfl
  | cons p rest ih =>
      have hsnd : (match Conn.write_all p.2 sd with
          | .ok c => ((p.1, c), (none : Option String))
          | .error _ => ((p.1, p.2), some p.1)).2 =
          (if p.2.writable then none else some p.1) := by
        cases hw : p.2.writable <;> simp [Conn.write_all, hw]
      simp only [List.map_cons, List.filterMap_cons, hsnd, ih]

theorem broadcast_message_ok (ser : ClipboardMessage → Except String (List Nat))
    (conns : Registry Conn) (m : ClipboardMessage) (data : List Nat)
    (hser : ser m = .ok data) :
    broadcast_message ser conns m =
      (.ok (),
        (conns.filterMap (fun p => if p.2.writable then none else some p.1)).foldl
          Registry.remove
          (conns.map (fun p => (p.1,
            if p.2.writable then { p.2 with written := p.2.written ++ frameBytes data }
            else p.2)))) := by
  unfold broadcast_message
  rw [hser]
  simp only [bm_map_fst, bm_filterMap_snd]

theorem all_writable_filterMap_nil (l : Registry Conn)
    (h : ∀ p ∈ l, p.2.writable = true) :
    l.filterMap (fun p => if p.2.writable then none else some p.1) = [] := by
  induction l with
  | nil => rfl
  | cons p rest ih =>
      have hp := h p (List.mem_cons_self p rest)
      rw [List.filterMap_cons, if_pos hp]
      exact ih (fun q hq => h q (List.mem_cons_of_mem p hq))

theorem failed_eq_single (conns : Registry Conn) (k : String) (ck : Conn)
    (hu : Registry.keysUnique conns) (hmem : (k, ck) ∈ conns)
    (hk : ck.writable = false)
    (hothers : ∀ p ∈ conns, p.1 ≠ k → p.2.writable = true) :
    conns.filterMap (fun p => if p.2.writable then none else some p.1) = [k] := by
  induction conns with
  | nil => simp at hmem
  | cons p rest ih =>
      have hu1 : (p.1 :: List.map Prod.fst rest).Nodup := hu
      have hu2 := List.nodup_cons.mp hu1
      rcases List.mem_cons.mp hmem with he | hm
      · subst he
        rw [List.filterMap_cons, if_neg (by simp [hk])]
        have hrest : ∀ q ∈ rest, q.2.writable = true := by
          intro q hq
          refine hothers q (List.mem_cons_of_mem _ hq) ?_
          intro hqk
          have hkm : k ∈ List.map Prod.fst rest := by
            rw [← hqk]
            exact List.mem_map_of_mem Prod.fst hq
          exact hu2.1 hkm
        rw [all_writable_filterMap_nil rest hrest]
      · have hpk : p.1 ≠ k := by
          intro he
          have hkm : k ∈ List.map Prod.fst rest :=
            List.mem_map_of_mem Prod.fst hm
          rw [← he] at hkm
          exact hu2.1 hkm
        have hw := hothers p (List.mem_cons_self p rest) hpk
        rw [List.filterMap_cons, if_pos hw]
        exact ih hu2.2 hm (fun q hq hqk => hothers q (List.mem_cons_of_mem p hq) hqk)

theorem Registry.lookup_map_write (conns : Registry Conn) (sd : List Nat) (id : String) :
    Registry.lookup (conns.map (fun p => (p.1,
      if p.2.writable then { p.2 with written := p.2.written ++ sd } else p.2))) id =
    (Registry.lookup conns id).map
      (fun c => if c.writable then { c with written := c.written ++ sd } else c) := by
  induction conns with
  | nil => rfl
  | cons p rest ih =>
      by_cases hid : p.1 = id
      · simp [Registry.lookup, hid]
      · simp [Registry.lookup, hid, ih]

/-- C2: broadcasting over a registry in which exactly one peer k is
unwritable returns success, appends the full frame to every other peer, and
leaves peer k absent from the registry afterwards; and the only failure
broadcast_message itself can report is an encoding failure of the outbound
message. -/
theorem claim_C2 (ser : ClipboardMessage → Except String (List Nat))
    (conns : Registry Conn) (m : ClipboardMessage) (data : List Nat)
    (k : String) (ck : Conn)
    (hser : ser m = .ok data)
    (hu : Registry.keysUnique conns)
    (hmem : (k, ck) ∈ conns)
    (hk : ck.writable = false)
    (hothers : ∀ p ∈ conns, p.1 ≠ k → p.2.writable = true) :
    (broadcast_message ser conns m).1 = .ok () ∧
    Registry.lookup (broadcast_message ser conns m).2 k = none ∧
    (∀ id c, id ≠ k → Registry.lookup conns id = some c →
      Registry.lookup (broadcast_message ser conns m).2 id =
        some { c with written := c.written ++ frameBytes data }) ∧
    (∀ conns2 m2 e, (broadcast_message ser conns2 m2).1 = .error e →
      ser m2 = .error e) := by
  have hbm := broadcast_message_ok ser conns m data hser
  rw [failed_eq_single conns k ck hu hmem hk hothers] at hbm
  simp only [List.foldl_cons, List.foldl_nil] at hbm
  refine ⟨by rw [hbm], ?_, ?_, ?_⟩
  · rw [hbm]
    exact Registry.lookup_remove_self _ k
  · intro id c hid hlk
    rw [hbm]
    show Registry.lookup (Registry.remove _ k) id = _
    rw [Registry.lookup_remove_ne _ k id hid, Registry.lookup_map_write, hlk]
    have hw : c.writable = true :=
      hothers (id, c) (Registry.mem_of_lookup conns id c hlk) hid
    simp [hw]
  · intro conns2 m2 e he
    unfold broadcast_message at he
    cases hs : ser m2 with
    | error e2 => rw [hs] at he; simpa using he
    | ok d2 => rw [hs] at he; simp at he

theorem claim_C2_witness :
    (broadcast_message (fun _ => .ok [3])
      [("a", Conn.mk true [] []), ("b", Conn.mk false [] [])]
      ⟨.Text "x", 0, "s", "n"⟩).1 = .ok () ∧
    Registry.lookup ((broadcast_message (fun _ => .ok [3])
      [("a", Conn.mk true [] []), ("b", Conn.mk false [] [])]
      ⟨.Text "x", 0, "s", "n"⟩).2) "b" = none ∧
    Registry.lookup ((broadcast_message (fun _ => .ok [3])
      [("a", Conn.mk true [] []), ("b", Conn.mk false [] [])]
      ⟨.Text "x", 0, "s", "n"⟩).2) "a" =
      some (Conn.mk true ([] ++ frameBytes [3]) []) := by
  have h := claim_C2 (fun _ => .ok [3])
    [("a", Conn.mk true [] []), ("b", Conn.mk false [] [])]
    ⟨.Text "x", 0, "s", "n"⟩ [3] "b" (Conn.mk false [] [])
    rfl (by decide) (by decide) rfl (by decide)
  exact ⟨h.1, h.2.1,
    h.2.2.1 "a" (Conn.mk true [] []) (by decide) (by decide)⟩

/-- C7 (counterexample): the claim that no network write happens while the
registry lock is held is false for the code as written: already for a
single registered peer, the broadcast trace performs a write between lock
acquisition and release. -/
theorem claim_C7_counterexample :
    ¬ (writeUnderLock 0 (broadcastEvents [("client_a", Conn.mk true [] [])]) = false) := by
  decide

/-- C7 (amended): broadcast_message iterates the live connection map while
holding the registry lock, so whenever at least one peer is registered a
network write is performed with the lock held; there is no point-in-time
snapshot. -/
theorem claim_C7_amended (conns : Registry Conn) (h : conns ≠ []) :
    writeUnderLock 0 (broadcastEvents conns) = true := by
  cases conns with
  | nil => exact absurd rfl h
  | cons p rest => simp [broadcastEvents, writeUnderLock]

theorem claim_C7_amended_witness :
    writeUnderLock 0 (broadcastEvents [("client_a", Conn.mk true [] [])]) = true :=
  claim_C7_amended [("client_a", Conn.mk true [] [])] (by decide)

end ClipboardSync
